import Mathlib

/-!
Verification of the cached paginated retrieval engine in
`pybliometrics/superclasses/base.py` (class `Base`, helper `_check_file_age`).

The development shallowly embeds the Python source:

* JSON payloads become the inductive type `Json` (numbers are modelled as
  integers; the payloads handled by the engine are structural JSON data and
  none of the verified claims depends on float formatting).
* `dumps` mirrors `json.dumps(item, separators=(',', ':'))`: compact output,
  control characters inside strings escaped.  Non-ASCII characters are kept
  raw (the source's `ensure_ascii` escaping changes bytes, not structure).
* `loads` mirrors `json.loads`: a fueled recursive-descent parser returning
  `none` on malformed input (Python raises `json.JSONDecodeError`).
* File texts, Python `str.split("\n")` and `"\n".join` become `List Char`
  functions `splitNl` / `joinNl`.
* Wall-clock instants are naturals (seconds); `time.time()` is passed in as
  an explicit `now` argument.
-/

namespace Pybliometrics

/-- Left brace character (kept out of string literals). -/
def lbrace : Char := Char.ofNat 123

/-- Right brace character (kept out of string literals). -/
def rbrace : Char := Char.ofNat 125

mutual
/-- A JSON document as handled by `json.loads` / `json.dumps` in the source.
Numbers are modelled as integers. -/
inductive Json where
  | null : Json
  | bool : Bool → Json
  | num : Int → Json
  | str : String → Json
  | arr : JsonList → Json
  | obj : JsonObj → Json

/-- The element list of a JSON array. -/
inductive JsonList where
  | nil : JsonList
  | cons : Json → JsonList → JsonList

/-- The key/value pairs of a JSON object, in insertion order. -/
inductive JsonObj where
  | nil : JsonObj
  | cons : String → Json → JsonObj → JsonObj
end

/-- Decimal digit characters of a positive natural number, most significant
first; the fuel argument makes the division loop structurally recursive. -/
def natCharsAux : Nat → Nat → List Char
  | 0, _ => []
  | f + 1, n =>
    if n = 0 then [] else natCharsAux f (n / 10) ++ [Nat.digitChar (n % 10)]

/-- Decimal digit characters of a natural number, most significant first. -/
def natChars (n : Nat) : List Char :=
  if n = 0 then ['0'] else natCharsAux n n

/-- Decimal rendering of an integer, possibly with a leading minus sign. -/
def intChars (n : Int) : List Char :=
  if n < 0 then '-' :: natChars n.natAbs else natChars n.toNat

/-- Hexadecimal digit for a value below 16. -/
def hexChar (d : Nat) : Char := Nat.digitChar d

/-- Escape of one character inside a JSON string literal, as `json.dumps`
produces it: quote, backslash, and named control escapes, `\u00XX` for the
remaining control characters, everything else verbatim. -/
def escChar (c : Char) : List Char :=
  if c = '"' then ['\\', '"']
  else if c = '\\' then ['\\', '\\']
  else if c = '\n' then ['\\', 'n']
  else if c = '\t' then ['\\', 't']
  else if c = '\r' then ['\\', 'r']
  else if c = '\x08' then ['\\', 'b']
  else if c = '\x0c' then ['\\', 'f']
  else if c.toNat < 32 then ['\\', 'u', '0', '0', hexChar (c.toNat / 16), hexChar (c.toNat % 16)]
  else [c]

/-- Escape every character of a string body. -/
def escList : List Char → List Char
  | [] => []
  | c :: cs => escChar c ++ escList cs

mutual
/-- `json.dumps(·, separators=(',', ':'))`: compact serialization. -/
def dumps : Json → List Char
  | .null => "null".data
  | .bool true => "true".data
  | .bool false => "false".data
  | .num n => intChars n
  | .str s => '"' :: (escList s.data ++ ['"'])
  | .arr xs => '[' :: (dumpsArr xs ++ [']'])
  | .obj kvs => lbrace :: (dumpsObj kvs ++ [rbrace])

/-- Array elements joined by `','`. -/
def dumpsArr : JsonList → List Char
  | .nil => []
  | .cons j .nil => dumps j
  | .cons j (.cons k tl) => dumps j ++ ',' :: dumpsArr (.cons k tl)

/-- Object members `"key":value` joined by `','`. -/
def dumpsObj : JsonObj → List Char
  | .nil => []
  | .cons k v .nil => '"' :: (escList k.data ++ '"' :: ':' :: dumps v)
  | .cons k v (.cons k2 v2 tl) =>
      ('"' :: (escList k.data ++ '"' :: ':' :: dumps v)) ++
        ',' :: dumpsObj (.cons k2 v2 tl)
end

/-- Numeric value of a decimal digit character. -/
def charVal (c : Char) : Nat := c.toNat - 48

/-- Numeric value of a hexadecimal digit character, if any. -/
def hexVal (c : Char) : Option Nat :=
  if c.isDigit then some (c.toNat - 48)
  else if 'a' ≤ c ∧ c ≤ 'f' then some (c.toNat - 87)
  else if 'A' ≤ c ∧ c ≤ 'F' then some (c.toNat - 55)
  else none

/-- Longest leading run of decimal digit characters, and the remainder. -/
def takeDigits : List Char → List Char × List Char
  | [] => ([], [])
  | c :: r =>
    if c.isDigit then
      let p := takeDigits r
      (c :: p.1, p.2)
    else ([], c :: r)

/-- Parse a nonempty run of decimal digits into a natural number. -/
def parseNatNum (s : List Char) : Option (Nat × List Char) :=
  if (takeDigits s).1 = [] then none
  else some (Nat.ofDigits 10 (((takeDigits s).1.map charVal).reverse), (takeDigits s).2)

/-- Parse a JSON integer (optional minus sign, then digits). -/
def parseNum (s : List Char) : Option (Int × List Char) :=
  match s with
  | [] => none
  | c :: r =>
    if c = '-' then (parseNatNum r).map (fun p => (-(p.1 : Int), p.2))
    else (parseNatNum (c :: r)).map (fun p => ((p.1 : Int), p.2))

/-- Drop an expected literal character sequence. -/
def dropLit : List Char → List Char → Option (List Char)
  | [], s => some s
  | _ :: _, [] => none
  | c :: cs, d :: s => if c = d then dropLit cs s else none

/-- Body of a JSON string literal (after the opening quote): returns the
decoded characters and the input following the closing quote. -/
def parseStrAux : List Char → Option (List Char × List Char)
  | [] => none
  | c :: r =>
    if c = '"' then some ([], r)
    else if c = '\\' then
      match r with
      | [] => none
      | e :: r2 =>
        if e = '"' then (parseStrAux r2).map (fun p => ('"' :: p.1, p.2))
        else if e = '\\' then (parseStrAux r2).map (fun p => ('\\' :: p.1, p.2))
        else if e = '/' then (parseStrAux r2).map (fun p => ('/' :: p.1, p.2))
        else if e = 'n' then (parseStrAux r2).map (fun p => ('\n' :: p.1, p.2))
        else if e = 't' then (parseStrAux r2).map (fun p => ('\t' :: p.1, p.2))
        else if e = 'r' then (parseStrAux r2).map (fun p => ('\r' :: p.1, p.2))
        else if e = 'b' then (parseStrAux r2).map (fun p => ('\x08' :: p.1, p.2))
        else if e = 'f' then (parseStrAux r2).map (fun p => ('\x0c' :: p.1, p.2))
        else if e = 'u' then
          match r2 with
          | h1 :: h2 :: h3 :: h4 :: r3 =>
            match hexVal h1, hexVal h2, hexVal h3, hexVal h4 with
            | some a, some b, some c3, some d =>
              let code := a * 4096 + b * 256 + c3 * 16 + d
              if code.isValidChar then
                (parseStrAux r3).map (fun p => (Char.ofNat code :: p.1, p.2))
              else none
            | _, _, _, _ => none
          | _ => none
        else none
    else (parseStrAux r).map (fun p => (c :: p.1, p.2))

mutual
/-- Recursive-descent JSON value grammar with an explicit recursion budget
(Python's `json.loads` recurses on the host stack). -/
def parseVal : Nat → List Char → Option (Json × List Char)
  | 0, _ => none
  | _ + 1, [] => none
  | f + 1, c :: r =>
    if c = 'n' then (dropLit "ull".data r).map (fun s => (.null, s))
    else if c = 't' then (dropLit "rue".data r).map (fun s => (.bool true, s))
    else if c = 'f' then (dropLit "alse".data r).map (fun s => (.bool false, s))
    else if c = '"' then (parseStrAux r).map (fun p => (.str (String.mk p.1), p.2))
    else if c = '[' then
      match r with
      | [] => none
      | c2 :: r2 =>
        if c2 = ']' then some (.arr .nil, r2)
        else (parseArrElems f (c2 :: r2)).map (fun p => (.arr p.1, p.2))
    else if c = lbrace then
      match r with
      | [] => none
      | c2 :: r2 =>
        if c2 = rbrace then some (.obj .nil, r2)
        else (parseObjElems f (c2 :: r2)).map (fun p => (.obj p.1, p.2))
    else if c = '-' ∨ c.isDigit then (parseNum (c :: r)).map (fun p => (.num p.1, p.2))
    else none

/-- One or more comma-separated array elements, up to the closing bracket. -/
def parseArrElems : Nat → List Char → Option (JsonList × List Char)
  | 0, _ => none
  | f + 1, s =>
    match parseVal f s with
    | none => none
    | some (j, r) =>
      match r with
      | [] => none
      | c :: r2 =>
        if c = ',' then (parseArrElems f r2).map (fun p => (.cons j p.1, p.2))
        else if c = ']' then some (.cons j .nil, r2)
        else none

/-- One or more comma-separated object members, up to the closing brace. -/
def parseObjElems : Nat → List Char → Option (JsonObj × List Char)
  | 0, _ => none
  | f + 1, s =>
    match s with
    | [] => none
    | c :: r =>
      if c = '"' then
        match parseStrAux r with
        | none => none
        | some (k, r2) =>
          match r2 with
          | [] => none
          | c2 :: r3 =>
            if c2 = ':' then
              match parseVal f r3 with
              | none => none
              | some (v, r4) =>
                match r4 with
                | [] => none
                | c3 :: r5 =>
                  if c3 = ',' then
                    (parseObjElems f r5).map (fun p => (.cons (String.mk k) v p.1, p.2))
                  else if c3 = rbrace then some (.cons (String.mk k) v .nil, r5)
                  else none
            else none
      else none
end

/-- `json.loads` on a whole text: parse one value and require that nothing
follows it.  The budget `length + 1` is enough for any input the engine
writes (proved below). -/
def loads (s : List Char) : Option Json :=
  match parseVal (s.length + 1) s with
  | some (j, []) => some j
  | _ => none

/-- The input after a serialized value never starts with a digit, so the
maximal-munch number grammar stops exactly at the value boundary. -/
def goodTail (r : List Char) : Prop :=
  ∀ c, r.head? = some c → c.isDigit = false

theorem goodTail_nil : goodTail [] := by
  intro c h
  simp at h

theorem goodTail_cons {c : Char} (h : c.isDigit = false) (r : List Char) :
    goodTail (c :: r) := by
  intro d hd
  simp at hd
  rwa [hd] at h

theorem charVal_digitChar : ∀ d, d < 10 → charVal (Nat.digitChar d) = d := by decide

theorem digitChar_isDigit : ∀ d, d < 10 → (Nat.digitChar d).isDigit = true := by decide

theorem natCharsAux_eq_digits :
    ∀ f n, n ≤ f → natCharsAux f n = ((Nat.digits 10 n).map Nat.digitChar).reverse := by
  intro f
  induction f with
  | zero =>
    intro n hn
    interval_cases n
    simp [natCharsAux]
  | succ f ih =>
    intro n hn
    by_cases h0 : n = 0
    · subst h0
      simp [natCharsAux]
    · have hdiv : n / 10 ≤ f := by
        have := Nat.div_lt_self (Nat.pos_of_ne_zero h0) (by norm_num : 1 < 10)
        omega
      rw [natCharsAux, if_neg h0, ih _ hdiv,
        Nat.digits_def' (by norm_num : 1 < 10) (Nat.pos_of_ne_zero h0)]
      simp

theorem natChars_eq_digits {n : Nat} (h : n ≠ 0) :
    natChars n = ((Nat.digits 10 n).map Nat.digitChar).reverse := by
  rw [natChars, if_neg h]
  exact natCharsAux_eq_digits n n le_rfl

theorem natChars_all_digits : ∀ n, ∀ c ∈ natChars n, c.isDigit = true := by
  intro n c hc
  by_cases h0 : n = 0
  · subst h0
    simp [natChars] at hc
    subst hc
    decide
  · rw [natChars_eq_digits h0] at hc
    simp at hc
    obtain ⟨d, hd, rfl⟩ := hc
    exact digitChar_isDigit d (Nat.digits_lt_base (by norm_num) hd)

theorem natChars_ne_nil (n : Nat) : natChars n ≠ [] := by
  by_cases h0 : n = 0
  · subst h0
    simp [natChars]
  · rw [natChars_eq_digits h0]
    simp [Nat.digits_ne_nil_iff_ne_zero, h0]

theorem takeDigits_append :
    ∀ ds rest, (∀ c ∈ ds, c.isDigit = true) → goodTail rest →
      takeDigits (ds ++ rest) = (ds, rest) := by
  intro ds
  induction ds with
  | nil =>
    intro rest _ hrest
    cases rest with
    | nil => simp [takeDigits]
    | cons c r =>
      have : c.isDigit = false := hrest c (by simp)
      simp [takeDigits, this]
  | cons d ds ih =>
    intro rest hds hrest
    have hd : d.isDigit = true := hds d (by simp)
    have := ih rest (fun c hc => hds c (by simp [hc])) hrest
    simp [takeDigits, hd, this]

theorem ofDigits_map_natChars : ∀ n, Nat.ofDigits 10 (((natChars n).map charVal).reverse) = n := by
  intro n
  by_cases h0 : n = 0
  · subst h0
    simp [natChars, Nat.ofDigits]
    decide
  · rw [natChars_eq_digits h0, List.map_reverse, List.reverse_reverse, List.map_map]
    have : (Nat.digits 10 n).map (charVal ∘ Nat.digitChar) = Nat.digits 10 n := by
      have h1 : (Nat.digits 10 n).map (charVal ∘ Nat.digitChar) = (Nat.digits 10 n).map id :=
        List.map_congr_left fun d hd =>
          charVal_digitChar d (Nat.digits_lt_base (by norm_num) hd)
      rw [h1, List.map_id]
    rw [this, Nat.ofDigits_digits]

theorem parseNatNum_natChars (n : Nat) (rest : List Char) (hrest : goodTail rest) :
    parseNatNum (natChars n ++ rest) = some (n, rest) := by
  have htake := takeDigits_append (natChars n) rest (natChars_all_digits n) hrest
  rw [parseNatNum, htake, if_neg (natChars_ne_nil n)]
  show some (Nat.ofDigits 10 (((natChars n).map charVal).reverse), rest) = some (n, rest)
  rw [ofDigits_map_natChars]

theorem isDigit_ne_minus {c : Char} (h : c.isDigit = true) : ¬(c = '-') := by
  intro hc
  subst hc
  exact absurd h (by decide)

theorem parseNum_intChars (n : Int) (rest : List Char) (hrest : goodTail rest) :
    parseNum (intChars n ++ rest) = some (n, rest) := by
  by_cases hn : n < 0
  · rw [intChars, if_pos hn]
    simp only [List.cons_append, parseNum, if_pos rfl]
    rw [parseNatNum_natChars _ _ hrest]
    have habs : -((n.natAbs : Nat) : Int) = n := by omega
    simp only [Option.map_some']
    rw [habs]
    simp
  · rw [intChars, if_neg hn]
    obtain ⟨d, ds, hds⟩ : ∃ d ds, natChars n.toNat = d :: ds :=
      List.exists_cons_of_ne_nil (natChars_ne_nil n.toNat)
    have hd : d.isDigit = true := natChars_all_digits n.toNat d (by simp [hds])
    rw [hds]
    simp only [List.cons_append, parseNum, if_neg (isDigit_ne_minus hd)]
    rw [← List.cons_append, ← hds, parseNatNum_natChars _ _ hrest]
    have htn : ((n.toNat : Nat) : Int) = n := by omega
    simp only [Option.map_some']
    rw [htn]

theorem hexVal_hexChar : ∀ d, d < 16 → hexVal (hexChar d) = some d := by decide

theorem parseStrAux_u (a b : Nat) (d1 d2 : Char) (tail : List Char)
    (hd1 : hexVal d1 = some a) (hd2 : hexVal d2 = some b)
    (hv : Nat.isValidChar (a * 16 + b)) :
    parseStrAux ('\\' :: 'u' :: '0' :: '0' :: d1 :: d2 :: tail) =
      (parseStrAux tail).map (fun p => (Char.ofNat (a * 16 + b) :: p.1, p.2)) := by
  have hz : hexVal '0' = some 0 := by decide
  rw [parseStrAux.eq_def]
  simp only [reduceIte]
  simp [hz, hd1, hd2, hv]

theorem parseStrAux_escList :
    ∀ cs rest, parseStrAux (escList cs ++ '"' :: rest) = some (cs, rest) := by
  intro cs
  induction cs with
  | nil =>
    intro rest
    rw [escList, List.nil_append, parseStrAux.eq_def]
    simp
  | cons c cs ih =>
    intro rest
    rw [escList, List.append_assoc]
    by_cases h1 : c = '"'
    · subst h1
      simp only [escChar, reduceIte, List.cons_append, List.nil_append]
      rw [parseStrAux.eq_def]
      simp only [reduceIte]
      simp [ih]
    · by_cases h2 : c = '\\'
      · subst h2
        simp only [escChar, reduceIte, List.cons_append, List.nil_append]
        rw [parseStrAux.eq_def]
        simp only [reduceIte]
        simp [ih]
      · by_cases h3 : c = '\n'
        · subst h3
          simp only [escChar, reduceIte, List.cons_append, List.nil_append]
          rw [parseStrAux.eq_def]
          simp only [reduceIte]
          simp [ih]
        · by_cases h4 : c = '\t'
          · subst h4
            simp only [escChar, reduceIte, List.cons_append, List.nil_append]
            rw [parseStrAux.eq_def]
            simp only [reduceIte]
            simp [ih]
          · by_cases h5 : c = '\r'
            · subst h5
              simp only [escChar, reduceIte, List.cons_append, List.nil_append]
              rw [parseStrAux.eq_def]
              simp only [reduceIte]
              simp [ih]
            · by_cases h6 : c = '\x08'
              · subst h6
                simp only [escChar, reduceIte, List.cons_append, List.nil_append]
                rw [parseStrAux.eq_def]
                simp only [reduceIte]
                simp [ih]
              · by_cases h7 : c = '\x0c'
                · subst h7
                  simp only [escChar, reduceIte, List.cons_append, List.nil_append]
                  rw [parseStrAux.eq_def]
                  simp only [reduceIte]
                  simp [ih]
                · by_cases h8 : c.toNat < 32
                  · rw [escChar, if_neg h1, if_neg h2, if_neg h3, if_neg h4, if_neg h5,
                      if_neg h6, if_neg h7, if_pos h8]
                    simp only [List.cons_append, List.nil_append]
                    rw [parseStrAux_u (c.toNat / 16) (c.toNat % 16) _ _ _
                      (hexVal_hexChar _ (by omega)) (hexVal_hexChar _ (by omega))
                      (Or.inl (by omega)), ih]
                    have hcode : c.toNat / 16 * 16 + c.toNat % 16 = c.toNat := by omega
                    rw [hcode, Char.ofNat_toNat]
                    rfl
                  · rw [escChar, if_neg h1, if_neg h2, if_neg h3, if_neg h4, if_neg h5,
                      if_neg h6, if_neg h7, if_neg h8]
                    simp only [List.cons_append, List.nil_append]
                    rw [parseStrAux.eq_def]
                    simp [h1, h2, ih]

mutual
/-- Recursion budget sufficient for `parseVal` to consume a serialized value. -/
def costV : Json → Nat
  | .arr (.cons x tl) => 1 + costA (.cons x tl)
  | .obj (.cons k v tl) => 1 + costO (.cons k v tl)
  | .arr .nil => 1
  | .obj .nil => 1
  | .null => 1
  | .bool _ => 1
  | .num _ => 1
  | .str _ => 1

/-- Budget for `parseArrElems` on a serialized element list. -/
def costA : JsonList → Nat
  | .nil => 1
  | .cons x tl => 1 + max (costV x) (costA tl)

/-- Budget for `parseObjElems` on serialized members. -/
def costO : JsonObj → Nat
  | .nil => 1
  | .cons _ v tl => 1 + max (costV v) (costO tl)
end

theorem string_mk_data (s : String) : String.mk s.data = s := rfl

theorem isDigit_not_lits {c : Char} (h : c.isDigit = true) :
    c ≠ lbrace ∧ c ≠ '[' ∧ c ≠ '"' ∧ c ≠ 'f' ∧ c ≠ 't' ∧ c ≠ 'n' := by
  refine ⟨?_, ?_, ?_, ?_, ?_, ?_⟩ <;> (rintro rfl; revert h; decide)

theorem dumps_head : ∀ j : Json, ∃ c cs, dumps j = c :: cs ∧ c ≠ ']' ∧ c ≠ rbrace := by
  intro j
  cases j with
  | null => exact ⟨'n', _, rfl, by decide, by decide⟩
  | bool b =>
    cases b
    · exact ⟨'f', _, rfl, by decide, by decide⟩
    · exact ⟨'t', _, rfl, by decide, by decide⟩
  | num n =>
    by_cases hn : n < 0
    · refine ⟨'-', natChars n.natAbs, ?_, by decide, by decide⟩
      simp [dumps, intChars, hn]
    · obtain ⟨d, ds, hds⟩ := List.exists_cons_of_ne_nil (natChars_ne_nil n.toNat)
      have hd := natChars_all_digits n.toNat d (by simp [hds])
      refine ⟨d, ds, ?_, ?_, ?_⟩
      · simp [dumps, intChars, hn, hds]
      · rintro rfl
        revert hd
        decide
      · rintro rfl
        revert hd
        decide
  | str s => exact ⟨'"', _, rfl, by decide, by decide⟩
  | arr xs => exact ⟨'[', _, rfl, by decide, by decide⟩
  | obj kvs => exact ⟨lbrace, _, rfl, by decide, by decide⟩

theorem dumpsArr_cons_head :
    ∀ x tl, ∃ c cs, dumpsArr (.cons x tl) = c :: cs ∧ c ≠ ']' := by
  intro x tl
  obtain ⟨c, cs, hx, hc, _⟩ := dumps_head x
  cases tl with
  | nil => exact ⟨c, cs, by simp [dumpsArr, hx], hc⟩
  | cons y tl2 =>
    refine ⟨c, cs ++ ',' :: dumpsArr (.cons y tl2), ?_, hc⟩
    simp [dumpsArr, hx]

mutual
theorem parseVal_dumps : ∀ (j : Json) (f : Nat) (rest : List Char),
    costV j ≤ f → goodTail rest → parseVal f (dumps j ++ rest) = some (j, rest)
  | .null, f, rest, hf, _ => by
    cases f with
    | zero => simp [costV] at hf
    | succ f =>
      rw [show dumps Json.null ++ rest = 'n' :: 'u' :: 'l' :: 'l' :: rest from rfl]
      rw [parseVal.eq_def]
      simp only [reduceIte]
      simp [dropLit]
  | .bool true, f, rest, hf, _ => by
    cases f with
    | zero => simp [costV] at hf
    | succ f =>
      rw [show dumps (Json.bool true) ++ rest = 't' :: 'r' :: 'u' :: 'e' :: rest from rfl]
      rw [parseVal.eq_def]
      simp only [reduceIte]
      simp [dropLit]
  | .bool false, f, rest, hf, _ => by
    cases f with
    | zero => simp [costV] at hf
    | succ f =>
      rw [show dumps (Json.bool false) ++ rest = 'f' :: 'a' :: 'l' :: 's' :: 'e' :: rest from rfl]
      rw [parseVal.eq_def]
      simp only [reduceIte]
      simp [dropLit]
  | .num n, f, rest, hf, hg => by
    cases f with
    | zero => simp [costV] at hf
    | succ f =>
      by_cases hn : n < 0
      · rw [show dumps (Json.num n) = intChars n from rfl, intChars, if_pos hn,
          List.cons_append, parseVal.eq_def]
        simp only [reduceIte]
        rw [if_neg (by decide : ¬(('-' : Char) = 'n')),
          if_neg (by decide : ¬(('-' : Char) = 't')),
          if_neg (by decide : ¬(('-' : Char) = 'f')),
          if_neg (by decide : ¬(('-' : Char) = '"')),
          if_neg (by decide : ¬(('-' : Char) = '[')),
          if_neg (by decide : ¬(('-' : Char) = lbrace))]
        rw [if_pos (Or.inl trivial)]
        have heq : ('-' :: (natChars n.natAbs ++ rest) : List Char) = intChars n ++ rest := by
          rw [intChars, if_pos hn, List.cons_append]
        rw [heq, parseNum_intChars n rest hg]
        rfl
      · obtain ⟨d, ds, hds⟩ := List.exists_cons_of_ne_nil (natChars_ne_nil n.toNat)
        have hd := natChars_all_digits n.toNat d (by simp [hds])
        obtain ⟨e6, e5, e4, e3, e2, e1⟩ := isDigit_not_lits hd
        rw [show dumps (Json.num n) = intChars n from rfl, intChars, if_neg hn, hds,
          List.cons_append, parseVal.eq_def]
        simp only [reduceIte]
        simp only [if_neg e1, if_neg e2, if_neg e3, if_neg e4, if_neg e5, if_neg e6]
        rw [if_pos (Or.inr hd)]
        have heq : (d :: (ds ++ rest) : List Char) = intChars n ++ rest := by
          rw [intChars, if_neg hn, hds, List.cons_append]
        rw [heq, parseNum_intChars n rest hg]
        rfl
  | .str s, f, rest, hf, _ => by
    cases f with
    | zero => simp [costV] at hf
    | succ f =>
      rw [show dumps (Json.str s) ++ rest = '"' :: (escList s.data ++ '"' :: rest) by
        simp [dumps]]
      rw [parseVal.eq_def]
      simp only [reduceIte]
      rw [parseStrAux_escList]
      simp [string_mk_data]
  | .arr .nil, f, rest, hf, _ => by
    cases f with
    | zero => simp [costV] at hf
    | succ f =>
      rw [show dumps (Json.arr JsonList.nil) ++ rest = '[' :: ']' :: rest by
        simp [dumps, dumpsArr]]
      rw [parseVal.eq_def]
      simp only [reduceIte]
      simp
  | .arr (.cons x tl), f, rest, hf, _ => by
    cases f with
    | zero => simp [costV] at hf
    | succ f =>
      obtain ⟨c2, cs2, he, hne⟩ := dumpsArr_cons_head x tl
      rw [show dumps (Json.arr (JsonList.cons x tl)) ++ rest =
          '[' :: (dumpsArr (.cons x tl) ++ ']' :: rest) by simp [dumps]]
      rw [he, List.cons_append, parseVal.eq_def]
      simp only [reduceIte]
      rw [if_neg hne, ← List.cons_append, ← he]
      have hcost : costA (.cons x tl) ≤ f := by
        simp [costV] at hf
        omega
      rw [parseArrElems_dumpsArr x tl f rest hcost]
      rfl
  | .obj .nil, f, rest, hf, _ => by
    cases f with
    | zero => simp [costV] at hf
    | succ f =>
      rw [show dumps (Json.obj JsonObj.nil) ++ rest = lbrace :: rbrace :: rest by
        simp [dumps, dumpsObj]]
      rw [parseVal.eq_def]
      simp only [reduceIte]
      rw [if_neg (by decide : ¬(lbrace = 'n')), if_neg (by decide : ¬(lbrace = 't')),
        if_neg (by decide : ¬(lbrace = 'f')), if_neg (by decide : ¬(lbrace = '"')),
        if_neg (by decide : ¬(lbrace = '['))]
  | .obj (.cons k v tl), f, rest, hf, _ => by
    cases f with
    | zero => simp [costV] at hf
    | succ f =>
      rw [show dumps (Json.obj (JsonObj.cons k v tl)) ++ rest =
          lbrace :: (dumpsObj (.cons k v tl) ++ rbrace :: rest) by simp [dumps]]
      have hobjhead : ∃ cs2, dumpsObj (.cons k v tl) = '"' :: cs2 := by
        cases tl with
        | nil => exact ⟨escList k.data ++ '"' :: ':' :: dumps v, rfl⟩
        | cons k2 v2 tl2 =>
          exact ⟨(escList k.data ++ '"' :: ':' :: dumps v) ++
            ',' :: dumpsObj (.cons k2 v2 tl2), rfl⟩
      obtain ⟨cs2, he⟩ := hobjhead
      rw [he, List.cons_append, parseVal.eq_def]
      simp only [reduceIte]
      rw [if_neg (by decide : ¬(lbrace = 'n')), if_neg (by decide : ¬(lbrace = 't')),
        if_neg (by decide : ¬(lbrace = 'f')), if_neg (by decide : ¬(lbrace = '"')),
        if_neg (by decide : ¬(lbrace = '['))]
      rw [if_neg (by decide : ¬(('"' : Char) = rbrace))]
      rw [← List.cons_append, ← he]
      have hcost : costO (.cons k v tl) ≤ f := by
        simp [costV] at hf
        omega
      rw [parseObjElems_dumpsObj k v tl f rest hcost]
      rfl
termination_by j _ _ _ _ => sizeOf j

theorem parseArrElems_dumpsArr : ∀ (x : Json) (tl : JsonList) (f : Nat) (rest : List Char),
    costA (.cons x tl) ≤ f →
    parseArrElems f (dumpsArr (.cons x tl) ++ ']' :: rest) = some (.cons x tl, rest)
  | x, tl, f, rest, hf => by
    cases f with
    | zero => simp [costA] at hf
    | succ f =>
      simp only [costA] at hf
      have hx : costV x ≤ f := by omega
      cases tl with
      | nil =>
        rw [show dumpsArr (JsonList.cons x JsonList.nil) = dumps x from by simp [dumpsArr]]
        rw [parseArrElems.eq_def]
        simp only [reduceIte]
        rw [parseVal_dumps x f (']' :: rest) hx (goodTail_cons (by decide) rest)]
        simp only [reduceIte]
        rw [if_neg (by decide : ¬((']' : Char) = ','))]
      | cons y tl2 =>
        rw [show dumpsArr (JsonList.cons x (JsonList.cons y tl2)) ++ ']' :: rest =
            dumps x ++ ',' :: (dumpsArr (.cons y tl2) ++ ']' :: rest) by
          simp [dumpsArr]]
        rw [parseArrElems.eq_def]
        simp only [reduceIte]
        rw [parseVal_dumps x f _ hx (goodTail_cons (by decide) _)]
        simp only [reduceIte]
        have hcost2 : costA (.cons y tl2) ≤ f := by omega
        rw [parseArrElems_dumpsArr y tl2 f rest hcost2]
        rfl
termination_by x tl _ _ _ => sizeOf (JsonList.cons x tl)

theorem parseObjElems_dumpsObj : ∀ (k : String) (v : Json) (tl : JsonObj) (f : Nat)
    (rest : List Char), costO (.cons k v tl) ≤ f →
    parseObjElems f (dumpsObj (.cons k v tl) ++ rbrace :: rest) = some (.cons k v tl, rest)
  | k, v, tl, f, rest, hf => by
    cases f with
    | zero => simp [costO] at hf
    | succ f =>
      simp only [costO] at hf
      have hv : costV v ≤ f := by omega
      cases tl with
      | nil =>
        rw [show dumpsObj (JsonObj.cons k v JsonObj.nil) ++ rbrace :: rest =
            '"' :: (escList k.data ++ '"' :: (':' :: (dumps v ++ rbrace :: rest))) by
          simp [dumpsObj]]
        rw [parseObjElems.eq_def]
        simp only [reduceIte]
        rw [parseStrAux_escList]
        simp only [reduceIte]
        rw [parseVal_dumps v f _ hv (goodTail_cons (by decide) _)]
        simp only [reduceIte]
        rw [if_neg (by decide : ¬(rbrace = ','))]
      | cons k2 v2 tl2 =>
        rw [show dumpsObj (JsonObj.cons k v (JsonObj.cons k2 v2 tl2)) ++ rbrace :: rest =
            '"' :: (escList k.data ++ '"' :: (':' :: (dumps v ++
              ',' :: (dumpsObj (.cons k2 v2 tl2) ++ rbrace :: rest)))) by
          simp [dumpsObj]]
        rw [parseObjElems.eq_def]
        simp only [reduceIte]
        rw [parseStrAux_escList]
        simp only [reduceIte]
        rw [parseVal_dumps v f _ hv (goodTail_cons (by decide) _)]
        simp only [reduceIte]
        have hcost2 : costO (.cons k2 v2 tl2) ≤ f := by omega
        rw [parseObjElems_dumpsObj k2 v2 tl2 f rest hcost2, string_mk_data]
        rfl
termination_by k v tl _ _ _ => sizeOf (JsonObj.cons k v tl)
end

mutual
theorem costV_le : ∀ j : Json, costV j ≤ (dumps j).length + 1
  | .null => by simp [costV]
  | .bool b => by simp [costV]
  | .num n => by simp [costV]
  | .str s => by simp [costV]
  | .arr .nil => by simp [costV]
  | .arr (.cons x tl) => by
    have h := costA_le (.cons x tl)
    simp only [costV, dumps, List.length_cons, List.length_append] at h ⊢
    omega
  | .obj .nil => by simp [costV]
  | .obj (.cons k v tl) => by
    have h := costO_le (.cons k v tl)
    simp only [costV, dumps, List.length_cons, List.length_append] at h ⊢
    omega
termination_by j => sizeOf j

theorem costA_le : ∀ xs : JsonList, costA xs ≤ (dumpsArr xs).length + 2
  | .nil => by simp [costA]
  | .cons x .nil => by
    have h := costV_le x
    simp only [costA, dumpsArr, costA] at h ⊢
    omega
  | .cons x (.cons y tl) => by
    have h1 := costV_le x
    have h2 := costA_le (.cons y tl)
    simp only [costA, dumpsArr, List.length_append, List.length_cons] at h1 h2 ⊢
    omega
termination_by xs => sizeOf xs

theorem costO_le : ∀ kvs : JsonObj, costO kvs ≤ (dumpsObj kvs).length + 2
  | .nil => by simp [costO]
  | .cons k v .nil => by
    have h := costV_le v
    simp only [costO, dumpsObj, List.length_append, List.length_cons] at h ⊢
    omega
  | .cons k v (.cons k2 v2 tl) => by
    have h1 := costV_le v
    have h2 := costO_le (.cons k2 v2 tl)
    simp only [costO, dumpsObj, List.length_append, List.length_cons] at h1 h2 ⊢
    omega
termination_by kvs => sizeOf kvs
end

/-- `json.loads` recovers exactly the document `json.dumps` wrote. -/
theorem loads_dumps (j : Json) : loads (dumps j) = some j := by
  have h := parseVal_dumps j ((dumps j).length + 1) []
    (le_trans (costV_le j) (by omega)) goodTail_nil
  rw [List.append_nil] at h
  rw [loads, h]

theorem digitChar_ne_nl : ∀ d, d < 16 → Nat.digitChar d ≠ '\n' := by decide

theorem escChar_ne_nl : ∀ c d, d ∈ escChar c → d ≠ '\n' := by
  intro c d hd
  by_cases h1 : c = '"'
  · simp [escChar, h1] at hd
    rcases hd with rfl | rfl <;> decide
  · by_cases h2 : c = '\\'
    · simp [escChar, h1, h2] at hd
      subst hd
      decide
    · by_cases h3 : c = '\n'
      · simp [escChar, h1, h2, h3] at hd
        rcases hd with rfl | rfl <;> decide
      · by_cases h4 : c = '\t'
        · simp [escChar, h1, h2, h3, h4] at hd
          rcases hd with rfl | rfl <;> decide
        · by_cases h5 : c = '\r'
          · simp [escChar, h1, h2, h3, h4, h5] at hd
            rcases hd with rfl | rfl <;> decide
          · by_cases h6 : c = '\x08'
            · simp [escChar, h1, h2, h3, h4, h5, h6] at hd
              rcases hd with rfl | rfl <;> decide
            · by_cases h7 : c = '\x0c'
              · simp [escChar, h1, h2, h3, h4, h5, h6, h7] at hd
                rcases hd with rfl | rfl <;> decide
              · by_cases h8 : c.toNat < 32
                · rw [escChar, if_neg h1, if_neg h2, if_neg h3, if_neg h4, if_neg h5,
                    if_neg h6, if_neg h7, if_pos h8] at hd
                  rintro rfl
                  simp at hd
                  rcases hd with h | h
                  · exact digitChar_ne_nl _ (by omega) h.symm
                  · exact digitChar_ne_nl _ (by omega) h.symm
                · rw [escChar, if_neg h1, if_neg h2, if_neg h3, if_neg h4, if_neg h5,
                    if_neg h6, if_neg h7, if_neg h8] at hd
                  simp at hd
                  subst hd
                  intro hc
                  subst hc
                  exact h8 (by decide)

theorem escList_ne_nl : ∀ cs d, d ∈ escList cs → d ≠ '\n' := by
  intro cs
  induction cs with
  | nil => intro d hd; simp [escList] at hd
  | cons c cs ih =>
    intro d hd
    simp only [escList, List.mem_append] at hd
    rcases hd with h | h
    · exact escChar_ne_nl c d h
    · exact ih d h

theorem natChars_ne_nl : ∀ n d, d ∈ natChars n → d ≠ '\n' := by
  intro n d hd
  have := natChars_all_digits n d hd
  rintro rfl
  exact absurd this (by decide)

theorem intChars_ne_nl : ∀ n d, d ∈ intChars n → d ≠ '\n' := by
  intro n d hd
  rw [intChars] at hd
  by_cases hn : n < 0
  · rw [if_pos hn] at hd
    rcases List.mem_cons.mp hd with rfl | h
    · decide
    · exact natChars_ne_nl _ _ h
  · rw [if_neg hn] at hd
    exact natChars_ne_nl _ _ hd

mutual
theorem dumps_ne_nl : ∀ j : Json, ∀ d, d ∈ dumps j → d ≠ '\n'
  | .null, d, hd => by
    simp [dumps] at hd
    rcases hd with rfl | rfl | rfl | rfl <;> decide
  | .bool true, d, hd => by
    simp [dumps] at hd
    rcases hd with rfl | rfl | rfl | rfl <;> decide
  | .bool false, d, hd => by
    simp [dumps] at hd
    rcases hd with rfl | rfl | rfl | rfl | rfl <;> decide
  | .num n, d, hd => intChars_ne_nl n d hd
  | .str s, d, hd => by
    simp only [dumps, List.mem_cons, List.mem_append] at hd
    rcases hd with rfl | (h | h)
    · decide
    · exact escList_ne_nl _ d h
    · simp at h
      subst h
      decide
  | .arr xs, d, hd => by
    simp only [dumps, List.mem_cons, List.mem_append] at hd
    rcases hd with rfl | (h | h)
    · decide
    · exact dumpsArr_ne_nl xs d h
    · simp at h
      subst h
      decide
  | .obj kvs, d, hd => by
    simp only [dumps, List.mem_cons, List.mem_append] at hd
    rcases hd with rfl | (h | h)
    · decide
    · exact dumpsObj_ne_nl kvs d h
    · simp at h
      subst h
      decide
termination_by j => sizeOf j

theorem dumpsArr_ne_nl : ∀ xs : JsonList, ∀ d, d ∈ dumpsArr xs → d ≠ '\n'
  | .nil, d, hd => by simp [dumpsArr] at hd
  | .cons x .nil, d, hd => dumps_ne_nl x d (by simpa [dumpsArr] using hd)
  | .cons x (.cons y tl), d, hd => by
    simp only [dumpsArr, List.mem_append, List.mem_cons] at hd
    rcases hd with h | (rfl | h)
    · exact dumps_ne_nl x d h
    · decide
    · exact dumpsArr_ne_nl (.cons y tl) d h
termination_by xs => sizeOf xs

theorem dumpsObj_ne_nl : ∀ kvs : JsonObj, ∀ d, d ∈ dumpsObj kvs → d ≠ '\n'
  | .nil, d, hd => by simp [dumpsObj] at hd
  | .cons k v .nil, d, hd => by
    simp only [dumpsObj, List.mem_cons, List.mem_append] at hd
    rcases hd with rfl | (h | (rfl | (rfl | h)))
    · decide
    · exact escList_ne_nl _ d h
    · decide
    · decide
    · exact dumps_ne_nl v d h
  | .cons k v (.cons k2 v2 tl), d, hd => by
    simp only [dumpsObj, List.mem_cons, List.mem_append] at hd
    rcases hd with (rfl | (h | (rfl | (rfl | h)))) | (rfl | h)
    · decide
    · exact escList_ne_nl _ d h
    · decide
    · decide
    · exact dumps_ne_nl v d h
    · decide
    · exact dumpsObj_ne_nl (.cons k2 v2 tl) d h
termination_by kvs => sizeOf kvs
end

theorem dumps_ne_nil (j : Json) : dumps j ≠ [] := by
  obtain ⟨c, cs, h, _, _⟩ := dumps_head j
  simp [h]

/-- Python `str.split("\n")`: split on every newline, keeping empty pieces
(`"".split("\n") == [""]`). -/
def splitNl : List Char → List (List Char)
  | [] => [[]]
  | c :: r =>
    if c = '\n' then [] :: splitNl r
    else
      match splitNl r with
      | [] => [[c]]
      | l :: ls => (c :: l) :: ls

/-- Python `"\n".join(...)`. -/
def joinNl : List (List Char) → List Char
  | [] => []
  | [l] => l
  | l :: l2 :: ls => l ++ '\n' :: joinNl (l2 :: ls)

theorem splitNl_no_nl : ∀ l : List Char, '\n' ∉ l → splitNl l = [l] := by
  intro l
  induction l with
  | nil => intro _; rfl
  | cons c r ih =>
    intro h
    have hc : ¬(c = '\n') := by
      intro hc
      exact h (by simp [hc])
    have hr := ih (fun hm => h (by simp [hm]))
    simp [splitNl, hc, hr]

theorem splitNl_append_nl : ∀ l t : List Char, '\n' ∉ l →
    splitNl (l ++ '\n' :: t) = l :: splitNl t := by
  intro l
  induction l with
  | nil => intro t _; simp [splitNl]
  | cons c r ih =>
    intro t h
    have hc : ¬(c = '\n') := by
      intro hc
      exact h (by simp [hc])
    have hr := ih t (fun hm => h (by simp [hm]))
    simp [splitNl, hc, hr]

theorem splitNl_joinNl : ∀ lines : List (List Char), lines ≠ [] →
    (∀ l ∈ lines, '\n' ∉ l) → splitNl (joinNl lines) = lines := by
  intro lines
  induction lines with
  | nil => intro h _; exact absurd rfl h
  | cons l ls ih =>
    intro _ hnl
    cases ls with
    | nil =>
      rw [show joinNl [l] = l from rfl]
      exact splitNl_no_nl l (hnl l (by simp))
    | cons l2 ls2 =>
      rw [show joinNl (l :: l2 :: ls2) = l ++ '\n' :: joinNl (l2 :: ls2) from rfl]
      rw [splitNl_append_nl l _ (hnl l (by simp))]
      rw [ih (by simp) (fun x hx => hnl x (by simp [hx]))]

/-!
## Model of `Base.__init__` and its helpers

`requests` records every `get_content` call in issue order (the loop is
sequential: each recursive step of `searchLoop` consumes the previous
response).  Exceptions become `Except.error` values; the request log is kept
alongside so that aborts remain observable.
-/

/-- Python exception kinds reachable from `Base.__init__` and the accessors.
`scopusQueryError` carries the observed result count and the configured
ceiling (the source embeds both in the message
`Found {n:,} matches.  The query fails to return more than
{SEARCH_MAX_ENTRIES} entries. ...`). -/
inductive PyErr where
  | valueError (msg : String)
  | typeError
  | keyError
  | jsonDecodeError
  | zeroDivisionError
  | scopusQueryError (found : Nat) (maxAllowed : Nat)
deriving DecidableEq

/-- Values a caller can pass as `refresh`.  Floats are omitted: `int(float)`
truncates and no claim involves fractional ages. -/
inductive RefreshVal where
  | bool (b : Bool)
  | int (n : Int)
  | str (s : String)
  | none_
deriving DecidableEq

/-- Python `int(str)`: optional surrounding spaces, optional sign, digits. -/
def pyIntOfStr (s : String) : Option Int :=
  let t := ((s.data.dropWhile (· = ' ')).reverse.dropWhile (· = ' ')).reverse
  match t with
  | '-' :: ds =>
    if ds ≠ [] ∧ ds.all Char.isDigit then
      some (-(Nat.ofDigits 10 ((ds.map charVal).reverse) : Int))
    else none
  | '+' :: ds =>
    if ds ≠ [] ∧ ds.all Char.isDigit then
      some ((Nat.ofDigits 10 ((ds.map charVal).reverse) : Int))
    else none
  | ds =>
    if ds ≠ [] ∧ ds.all Char.isDigit then
      some ((Nat.ofDigits 10 ((ds.map charVal).reverse) : Int))
    else none

/-- Python `int(x)` on the refresh value: booleans and integers convert,
strings convert when they spell an integer (`ValueError` otherwise), and
`None` raises `TypeError` — which `except ValueError` does not catch. -/
def pyInt : RefreshVal → Except PyErr Int
  | .bool b => .ok (if b then 1 else 0)
  | .int n => .ok n
  | .str s =>
    match pyIntOfStr s with
    | some n => .ok n
    | none => .error (.valueError "invalid literal for int() with base 10")
  | .none_ => .error .typeError

/-- `_check_file_age(self)`: returns the effective refresh flag and the cache
file's modification timestamp.  A missing file (`FileNotFoundError`) yields
`(true, none)`.  For a non-boolean refresh value the allowed age is compared
against `int(diff / 86400) + 1` days. -/
def _check_file_age (refresh : RefreshVal) (cacheExists : Bool) (mtime now : Nat) :
    Except PyErr (Bool × Option Nat) :=
  if cacheExists then
    match refresh with
    | .bool b => .ok (b, some mtime)
    | r => do
      let days : Nat := (now - mtime) / 86400 + 1
      let allowed ← pyInt r
      .ok (decide (allowed < (days : Int)), some mtime)
  else .ok (true, none)

/-- The request parameters the engine reads and mutates: `query` presence
selects the search branch, `count` is the page size, `start` the offset,
`cursor` the continuation token (present iff cursor pagination). -/
structure SParams where
  query : Option String
  count : Nat
  start : Nat
  cursor : Option String
deriving DecidableEq

/-- One `get_content` response: the search envelope fields
(`opensearch:totalResults`, `entry`, `cursor.@next`), the raw body used by
retrieval requests, and the rate-limit headers. -/
structure Resp where
  totalResults : Nat
  entries : List Json
  nextCursor : String
  text : List Char
  headers : List (String × String)

/-- All inputs of one `Base.__init__` run. -/
structure Env where
  params : SParams
  download : Bool
  not_query : Bool
  refresh : RefreshVal
  cacheExists : Bool
  cacheText : List Char
  mtime : Nat
  now : Nat
  maxEntries : Nat
  service : SParams → Resp

/-- `self._json` after a run: a list of entries for a search request, one
document for a retrieval request. -/
inductive Payload where
  | search (entries : List Json)
  | retrieval (doc : Json)

/-- Observable end state of a run: `self._json`/`self._n`, the text written
to the cache file (if any), `self._header` and `self._mdate`. -/
structure Outcome where
  payload : Payload
  n : Option Nat
  written : Option (List Char)
  header : Option (List (String × String))
  mdate : Option Nat

/-- A run's request log plus its outcome or exception. -/
structure RunResult where
  requests : List SParams
  result : Except PyErr Outcome

/-- The `for i in tqdm(range(1, n_chunks))` download loop.  Offset
pagination advances `start` by `count`; cursor pagination substitutes the
previous response's `@next` token.  Returns the requests issued, the
entries accumulated, and the final response (whose headers the source
keeps). -/
def searchLoop (service : SParams → Resp) : SParams → Resp → Nat →
    List SParams × List Json × Resp
  | _, res, 0 => ([], [], res)
  | params, res, k + 1 =>
    let params' :=
      if params.cursor.isSome then { params with cursor := some res.nextCursor }
      else { params with start := params.start + params.count }
    let resp' := service params'
    let p := searchLoop service params' resp' k
    (params' :: p.1, resp'.entries ++ p.2.1, p.2.2)

/-- `[loads(line) for line in lines]`: the first malformed line aborts. -/
def readLinesAux : List (List Char) → Option (List Json)
  | [] => some []
  | l :: ls =>
    match loads l with
    | none => none
    | some j => (readLinesAux ls).map (j :: ·)

/-- The search cache-hit reader:
`[loads(line) for line in fname.read_text().split("\n") if line]`. -/
def readSearchText (s : List Char) : Option (List Json) :=
  readLinesAux ((splitNl s).filter (fun l => !l.isEmpty))

/-- The cache writer:
`"\n".join(dumps(item, separators=(',', ':')) for item in data)`. -/
def writeLines (data : List Json) : List Char :=
  joinNl (data.map dumps)

/-- `Base.__init__`, step for step.  The refresh value is validated first
(`except ValueError` re-raises with a fixed message; `TypeError` escapes),
then `_check_file_age` decides between the cache-hit read and the network
branch with its size check, chunked download and final write. -/
def base_init (env : Env) : RunResult :=
  match pyInt env.refresh with
  | .error (.valueError _) =>
    ⟨[], .error (.valueError "Parameter refresh needs to be numeric or boolean.")⟩
  | .error e => ⟨[], .error e⟩
  | .ok _ =>
    match _check_file_age env.refresh env.cacheExists env.mtime env.now with
    | .error e => ⟨[], .error e⟩
    | .ok (refresh, mod_ts) =>
      let search_request := env.params.query.isSome && !env.not_query
      if env.cacheExists && !refresh then
        if search_request then
          match readSearchText env.cacheText with
          | none => ⟨[], .error .jsonDecodeError⟩
          | some js => ⟨[], .ok ⟨.search js, some js.length, none, none, mod_ts⟩⟩
        else
          match loads env.cacheText with
          | none => ⟨[], .error .jsonDecodeError⟩
          | some j => ⟨[], .ok ⟨.retrieval j, none, none, none, mod_ts⟩⟩
      else
        let resp := env.service env.params
        if search_request then
          let n := resp.totalResults
          let cursor_exists := env.params.cursor.isSome
          if !cursor_exists && decide (env.maxEntries < n) then
            ⟨[env.params], .error (.scopusQueryError n env.maxEntries)⟩
          else if env.download then
            if env.params.count = 0 then ⟨[env.params], .error .zeroDivisionError⟩
            else
              let firstData := if n = 0 then [] else resp.entries
              let n_chunks := (n + env.params.count - 1) / env.params.count
              let p := searchLoop env.service env.params resp (n_chunks - 1)
              let data := firstData ++ p.2.1
              ⟨env.params :: p.1,
                .ok ⟨.search data, some n, some (writeLines data),
                  some p.2.2.headers, some env.now⟩⟩
          else
            ⟨[env.params], .ok ⟨.search [], some n, none, some resp.headers, some env.now⟩⟩
        else
          match loads resp.text with
          | none => ⟨[env.params], .error .jsonDecodeError⟩
          | some j =>
            ⟨[env.params],
              .ok ⟨.retrieval j, none, if env.download then some (dumps j) else none,
                some resp.headers, some env.now⟩⟩

/-- `get_cache_file_age`: `int((time() - self._mdate) / 86400)` — no `+ 1`. -/
def get_cache_file_age (now mdate : Nat) : Nat := (now - mdate) / 86400

/-- Case-insensitive header lookup (`requests` uses a case-insensitive
dictionary; a missing key raises `KeyError`). -/
def ciLookup (h : List (String × String)) (k : String) : Option String :=
  (h.find? (fun kv => kv.1.toLower = k.toLower)).map (·.2)

/-- `get_key_remaining_quota`: an unset `self._header` attribute raises
`AttributeError`, which is caught and converted to `None`; a present header
object lacking the key raises `KeyError`, which is not caught. -/
def get_key_remaining_quota (header : Option (List (String × String))) :
    Except PyErr (Option String) :=
  match header with
  | none => .ok none
  | some h =>
    match ciLookup h "X-RateLimit-Remaining" with
    | some v => .ok (some v)
    | none => .error .keyError

/-- `get_key_reset_time`: same shape; the value is also run through `int`
(the source then formats it with `strftime`/`localtime`; the model returns
the parsed epoch). -/
def get_key_reset_time (header : Option (List (String × String))) :
    Except PyErr (Option Int) :=
  match header with
  | none => .ok none
  | some h =>
    match ciLookup h "X-RateLimit-Reset" with
    | none => .error .keyError
    | some v =>
      match pyIntOfStr v with
      | none => .error (.valueError "invalid literal for int() with base 10")
      | some d => .ok (some d)

/-! ## Helper lemmas about the cache text and the download loop -/

theorem readLinesAux_dumps : ∀ data : List Json, readLinesAux (data.map dumps) = some data := by
  intro data
  induction data with
  | nil => rfl
  | cons j tl ih => simp [readLinesAux, loads_dumps, ih]

theorem read_write_lines : ∀ data : List Json, readSearchText (writeLines data) = some data := by
  intro data
  cases data with
  | nil => rfl
  | cons j tl =>
    rw [readSearchText, writeLines]
    rw [splitNl_joinNl ((j :: tl).map dumps) (by simp) ?hnl]
    case hnl =>
      intro l hl
      obtain ⟨j2, _, rfl⟩ := List.mem_map.mp hl
      exact fun h => dumps_ne_nl j2 '\n' h rfl
    rw [List.filter_eq_self.mpr ?hne]
    case hne =>
      intro l hl
      obtain ⟨j2, _, rfl⟩ := List.mem_map.mp hl
      simpa [List.isEmpty_iff] using dumps_ne_nil j2
    exact readLinesAux_dumps _

/-- The page-`i` request of an offset-paginated run: `start` advanced by
`i * count`. -/
def offsetParams (params : SParams) (i : Nat) : SParams :=
  { params with start := params.start + i * params.count }

theorem offsetParams_zero (p : SParams) : offsetParams p 0 = p := by
  cases p
  simp [offsetParams]

theorem offsetParams_one (p : SParams) :
    ({ p with start := p.start + p.count } : SParams) = offsetParams p 1 := by
  cases p
  simp [offsetParams]

theorem offsetParams_shift (p : SParams) (a b : Nat) :
    offsetParams (offsetParams p a) b = offsetParams p (a + b) := by
  cases p
  simp [offsetParams]
  ring

theorem flatMap_map_succ {α : Type} (g : Nat → List α) (l : List Nat) :
    (l.map Nat.succ).flatMap g = l.flatMap (fun i => g (i + 1)) := by
  induction l with
  | nil => rfl
  | cons a l ih => simp [ih]

/-- In offset mode the loop issues ascending offsets and concatenates the
pages' entry lists in return order. -/
theorem searchLoop_offset (service : SParams → Resp) :
    ∀ (k : Nat) (params : SParams) (res : Resp), params.cursor = none →
    (searchLoop service params res k).1 =
      (List.range k).map (fun i => offsetParams params (i + 1)) ∧
    (searchLoop service params res k).2.1 =
      (List.range k).flatMap (fun i => (service (offsetParams params (i + 1))).entries) := by
  intro k
  induction k with
  | zero =>
    intro params res _
    simp [searchLoop]
  | succ k ih =>
    intro params res h
    have hcur : params.cursor.isSome = false := by simp [h]
    obtain ⟨ih1, ih2⟩ := ih (offsetParams params 1) (service (offsetParams params 1))
      (by simp [offsetParams, h])
    have hfun : ∀ i : Nat, offsetParams (offsetParams params 1) (i + 1) =
        offsetParams params (i + 1 + 1) := by
      intro i
      rw [offsetParams_shift]
      congr 1
      omega
    rw [searchLoop]
    simp only [hcur, Bool.false_eq_true, if_false, offsetParams_one]
    refine ⟨?_, ?_⟩
    · rw [ih1, List.range_succ_eq_map, List.map_cons, List.map_map]
      refine congrArg₂ List.cons rfl ?_
      apply List.map_congr_left
      intro i _
      exact hfun i
    · rw [ih2, List.range_succ_eq_map, List.flatMap_cons, flatMap_map_succ]
      refine congrArg₂ List.append rfl ?_
      congr 1
      funext i
      rw [hfun i]


theorem cons_offsets (params : SParams) (m : Nat) :
    params :: (List.range m).map (fun i => offsetParams params (i + 1)) =
      (List.range (m + 1)).map (fun i => offsetParams params i) := by
  rw [List.range_succ_eq_map, List.map_cons, List.map_map]
  exact congrArg₂ List.cons (offsetParams_zero params).symm rfl

theorem cons_entries (service : SParams → Resp) (params : SParams) (m : Nat) :
    (service params).entries ++
        (List.range m).flatMap (fun i => (service (offsetParams params (i + 1))).entries) =
      (List.range (m + 1)).flatMap (fun i => (service (offsetParams params i)).entries) := by
  rw [List.range_succ_eq_map, List.flatMap_cons, flatMap_map_succ]
  refine congrArg₂ List.append ?_ rfl
  rw [offsetParams_zero]


/-! ## Verified properties of the engine -/

/-- C3: for every existing cache file and integer (non-boolean) refresh
policy `maxAgeDays`, the staleness check returns `true` exactly when
`maxAgeDays < floor((now - mtime) / 86400) + 1`; in particular a file whose
age counts as 2 days (one full day elapsed, under two) refreshes under
policy 1 but not under policy 2. -/
theorem C3_numeric_staleness (now mtime : Nat) (k : Int) (_hmt : mtime ≤ now) :
    (_check_file_age (.int k) true mtime now = .ok (true, some mtime) ↔
      k < (((now - mtime) / 86400 + 1 : Nat) : Int)) ∧
    (86400 ≤ now - mtime → now - mtime < 172800 →
      _check_file_age (.int 1) true mtime now = .ok (true, some mtime) ∧
      _check_file_age (.int 2) true mtime now = .ok (false, some mtime)) := by
  constructor
  · rw [show _check_file_age (.int k) true mtime now =
        .ok (decide (k < (((now - mtime) / 86400 + 1 : Nat) : Int)), some mtime) from rfl]
    constructor
    · intro h
      have := (Except.ok.injEq _ _).mp h
      have h1 := congrArg Prod.fst this
      simp at h1
      omega
    · intro h
      rw [decide_eq_true h]
  · intro h1 h2
    have hd : (now - mtime) / 86400 = 1 := by omega
    constructor
    · rw [show _check_file_age (.int 1) true mtime now =
          .ok (decide ((1 : Int) < (((now - mtime) / 86400 + 1 : Nat) : Int)), some mtime)
        from rfl, hd]
      norm_num
    · rw [show _check_file_age (.int 2) true mtime now =
          .ok (decide ((2 : Int) < (((now - mtime) / 86400 + 1 : Nat) : Int)), some mtime)
        from rfl, hd]
      norm_num

/-- Witness for C3 at `now = 172800`, `mtime = 80000` (age a bit over one
day, counted as 2 days): policy 1 refreshes, policy 2 does not. -/
theorem C3_numeric_staleness_witness :
    _check_file_age (.int 1) true 80000 172800 = .ok (true, some 80000) ∧
    _check_file_age (.int 2) true 80000 172800 = .ok (false, some 80000) :=
  (C3_numeric_staleness 172800 80000 1 (by omega)).2 (by omega) (by omega)

/-- C5: persisting an entry sequence (one compact JSON document per line for
search requests, a single document for retrieval requests, the empty file
for zero results) and re-reading it through the cache-hit readers yields the
identical ordered sequence. -/
theorem C5_cache_roundtrip :
    (∀ entries : List Json, readSearchText (writeLines entries) = some entries) ∧
    (∀ doc : Json, loads (dumps doc) = some doc) ∧
    writeLines [] = [] :=
  ⟨read_write_lines, loads_dumps, rfl⟩

/-- C8: before any network request has completed in the process
(`self._header` unset), both quota queries return an absent value rather
than raising. -/
theorem C8_quota_absent :
    get_key_remaining_quota none = .ok none ∧ get_key_reset_time none = .ok none :=
  ⟨rfl, rfl⟩

/-- C9: the public cache-age query returns `floor((now - mtime) / 86400)`
with no `+1`, so a record written less than a day ago reports age 0 while
the staleness policy counts every record exactly one day older. -/
theorem C9_cache_age_off_by_one (now mtime : Nat) (k : Int) (_hmt : mtime ≤ now) :
    get_cache_file_age now mtime = (now - mtime) / 86400 ∧
    (now - mtime < 86400 → get_cache_file_age now mtime = 0) ∧
    _check_file_age (.int k) true mtime now =
      .ok (decide (k < ((get_cache_file_age now mtime : Nat) : Int) + 1), some mtime) := by
  refine ⟨rfl, ?_, ?_⟩
  · intro h
    rw [get_cache_file_age]
    omega
  · rw [show _check_file_age (.int k) true mtime now =
        .ok (decide (k < (((now - mtime) / 86400 + 1 : Nat) : Int)), some mtime) from rfl]
    rw [get_cache_file_age]
    norm_num

/-- Witness for C9 at `now = 50000`, `mtime = 10000` (written under a day
ago): public age 0, staleness age 1. -/
theorem C9_cache_age_off_by_one_witness :
    get_cache_file_age 50000 10000 = (50000 - 10000) / 86400 ∧
    (50000 - 10000 < 86400 → get_cache_file_age 50000 10000 = 0) ∧
    _check_file_age (.int 0) true 10000 50000 =
      .ok (decide ((0 : Int) < ((get_cache_file_age 50000 10000 : Nat) : Int) + 1),
        some 10000) :=
  C9_cache_age_off_by_one 50000 10000 0 (by omega)

/-- C10: once a network request has completed (`self._header` set), a header
object lacking the rate-limit field makes the corresponding query raise
`KeyError` (only `AttributeError` — the unset attribute — is converted to an
absent value). -/
theorem C10_missing_header_key (h : List (String × String)) :
    (ciLookup h "X-RateLimit-Remaining" = none →
      get_key_remaining_quota (some h) = .error .keyError) ∧
    (ciLookup h "X-RateLimit-Reset" = none →
      get_key_reset_time (some h) = .error .keyError) := by
  constructor
  · intro hm
    rw [get_key_remaining_quota, hm]
  · intro hm
    rw [get_key_reset_time, hm]

/-- Witness for C10 at the empty header mapping. -/
theorem C10_missing_header_key_witness :
    get_key_remaining_quota (some []) = .error .keyError ∧
    get_key_reset_time (some []) = .error .keyError :=
  ⟨(C10_missing_header_key []).1 rfl, (C10_missing_header_key []).2 rfl⟩


/-- C1 (amended): for an offset-paginated search request that reaches the
network with download enabled, page size `p > 0`, first-page
`totalResultCount = n ≥ 1` within the ceiling, the run issues exactly
`ceil(n/p)` requests — the base parameters followed by offsets advanced by
`p` per page, strictly in order — and accumulates the concatenation of the
pages' entry lists in service-return order (at `n = 0` the code still
issues its one initial request, see the counterexample). -/
theorem C1_offset_pagination (env : Env) (n : Nat)
    (href : env.refresh = .bool true)
    (hq : env.params.query.isSome = true) (hnq : env.not_query = false)
    (hcur : env.params.cursor = none)
    (hdl : env.download = true) (hcount : 0 < env.params.count)
    (hn : (env.service env.params).totalResults = n)
    (hmax : n ≤ env.maxEntries) (hpos : 0 < n) :
    (base_init env).requests =
      (List.range ((n + env.params.count - 1) / env.params.count)).map
        (fun i => offsetParams env.params i) ∧
    (base_init env).requests.length = (n + env.params.count - 1) / env.params.count ∧
    ∃ hdr : Option (List (String × String)),
      (base_init env).result = .ok
        ⟨.search ((List.range ((n + env.params.count - 1) / env.params.count)).flatMap
            (fun i => (env.service (offsetParams env.params i)).entries)),
          some n,
          some (writeLines
            ((List.range ((n + env.params.count - 1) / env.params.count)).flatMap
              (fun i => (env.service (offsetParams env.params i)).entries))),
          hdr, some env.now⟩ := by
  have hcs : env.params.cursor.isSome = false := by rw [hcur]; rfl
  have hng : ¬(env.maxEntries < n) := by omega
  have hc0 : ¬(env.params.count = 0) := by omega
  have hn0 : ¬(n = 0) := by omega
  have hbase : base_init env =
      ⟨env.params :: (searchLoop env.service env.params (env.service env.params)
          ((n + env.params.count - 1) / env.params.count - 1)).1,
        .ok ⟨.search ((env.service env.params).entries ++
            (searchLoop env.service env.params (env.service env.params)
              ((n + env.params.count - 1) / env.params.count - 1)).2.1),
          some n,
          some (writeLines ((env.service env.params).entries ++
            (searchLoop env.service env.params (env.service env.params)
              ((n + env.params.count - 1) / env.params.count - 1)).2.1)),
          some (searchLoop env.service env.params (env.service env.params)
            ((n + env.params.count - 1) / env.params.count - 1)).2.2.headers,
          some env.now⟩⟩ := by
    cases hce : env.cacheExists <;>
      simp [base_init, href, pyInt, _check_file_age, hce, hq, hnq, hcs, hn, hng, hdl, hc0, hn0]
  have hm1 : 1 ≤ (n + env.params.count - 1) / env.params.count := by
    rw [Nat.le_div_iff_mul_le hcount]
    omega
  have hmm : (n + env.params.count - 1) / env.params.count - 1 + 1 =
      (n + env.params.count - 1) / env.params.count := by omega
  obtain ⟨hl1, hl2⟩ := searchLoop_offset env.service
    ((n + env.params.count - 1) / env.params.count - 1) env.params
    (env.service env.params) hcur
  have hreq : env.params :: (searchLoop env.service env.params (env.service env.params)
      ((n + env.params.count - 1) / env.params.count - 1)).1 =
      (List.range ((n + env.params.count - 1) / env.params.count)).map
        (fun i => offsetParams env.params i) := by
    rw [hl1, cons_offsets, hmm]
  have hent : (env.service env.params).entries ++
      (searchLoop env.service env.params (env.service env.params)
        ((n + env.params.count - 1) / env.params.count - 1)).2.1 =
      (List.range ((n + env.params.count - 1) / env.params.count)).flatMap
        (fun i => (env.service (offsetParams env.params i)).entries) := by
    rw [hl2, cons_entries, hmm]
  rw [hbase]
  refine ⟨hreq, ?_, ?_⟩
  · rw [show (⟨env.params :: (searchLoop env.service env.params (env.service env.params)
        ((n + env.params.count - 1) / env.params.count - 1)).1, _⟩ : RunResult).requests =
        env.params :: (searchLoop env.service env.params (env.service env.params)
          ((n + env.params.count - 1) / env.params.count - 1)).1 from rfl, hreq]
    simp
  · exact ⟨_, by rw [show (⟨_, .ok _⟩ : RunResult).result = _ from rfl, hent]⟩

/-- Service for the C1 counterexample: the first page reports
`totalResultCount = 0`. -/
def C1_service_zero : SParams → Resp := fun _ =>
  { totalResults := 0, entries := [Json.num 3], nextCursor := "", text := [], headers := [] }

/-- Environment for the C1 counterexample: offset pagination, download
enabled, page size 25, no fresh cache. -/
def C1_env_zero : Env :=
  { params := { query := some "q", count := 25, start := 0, cursor := none },
    download := true, not_query := false, refresh := .bool true, cacheExists := false,
    cacheText := [], mtime := 0, now := 99, maxEntries := 5000,
    service := C1_service_zero }

/-- C1 counterexample: with `totalResultCount = 0` and page size 25 the run
still issues one (initial) page request, while `ceil(0/25) = 0` — so "fetch
issues exactly ceil(n/p) page requests in total" fails at `n = 0`. -/
theorem C1_counterexample :
    (base_init C1_env_zero).requests.length = 1 ∧
    ((C1_env_zero.service C1_env_zero.params).totalResults +
        C1_env_zero.params.count - 1) / C1_env_zero.params.count = 0 :=
  ⟨rfl, rfl⟩

/-- Witness for C1 at the spec's pagination scenario:
`totalResultCount = 250`, page size 25, offsets 0, 25, ..., 225, ten
requests, entries concatenated in service order. -/
def C1_service_paged : SParams → Resp := fun p =>
  { totalResults := 250, entries := [Json.num (p.start : Int)], nextCursor := "",
    text := [], headers := [("X-RateLimit-Remaining", "7")] }

/-- Environment for the C1 witness. -/
def C1_env_paged : Env :=
  { params := { query := some "q", count := 25, start := 0, cursor := none },
    download := true, not_query := false, refresh := .bool true, cacheExists := false,
    cacheText := [], mtime := 0, now := 99, maxEntries := 5000,
    service := C1_service_paged }

theorem C1_offset_pagination_witness :
    (base_init C1_env_paged).requests =
      (List.range 10).map (fun i => offsetParams C1_env_paged.params i) ∧
    (base_init C1_env_paged).requests.length = 10 ∧
    ∃ hdr, (base_init C1_env_paged).result = .ok
      ⟨.search ((List.range 10).flatMap
          (fun i => (C1_env_paged.service (offsetParams C1_env_paged.params i)).entries)),
        some 250,
        some (writeLines ((List.range 10).flatMap
          (fun i => (C1_env_paged.service (offsetParams C1_env_paged.params i)).entries))),
        hdr, some 99⟩ :=
  C1_offset_pagination C1_env_paged 250 rfl rfl rfl rfl rfl (by decide) rfl
    (by decide) (by decide)

/-- C2: an offset-paginated (cursor-free) search whose first page reports a
result count above the ceiling aborts with `ScopusQueryError` — carrying
the observed count and the ceiling — right after the first request;
cursor-paginated requests never trigger this error. -/
theorem C2_query_too_large (env : Env) (n : Nat)
    (href : env.refresh = .bool true)
    (hq : env.params.query.isSome = true) (hnq : env.not_query = false)
    (hn : (env.service env.params).totalResults = n) :
    ((base_init env).result = .error (.scopusQueryError n env.maxEntries) ↔
      env.params.cursor = none ∧ env.maxEntries < n) ∧
    (env.params.cursor = none → env.maxEntries < n →
      (base_init env).requests = [env.params]) := by
  by_cases hcur : env.params.cursor = none
  · have hcs : env.params.cursor.isSome = false := by rw [hcur]; rfl
    by_cases hgt : env.maxEntries < n
    · have hres : base_init env =
          ⟨[env.params], .error (.scopusQueryError n env.maxEntries)⟩ := by
        cases hce : env.cacheExists <;>
          simp [base_init, href, pyInt, _check_file_age, hce, hq, hnq, hcs, hn, hgt]
      rw [hres]
      exact ⟨by simp [hcur, hgt], fun _ _ => rfl⟩
    · have hne : (base_init env).result ≠ .error (.scopusQueryError n env.maxEntries) := by
        cases hdl : env.download <;> by_cases hc0 : env.params.count = 0 <;>
          cases hce : env.cacheExists <;>
            simp [base_init, href, pyInt, _check_file_age, hce, hq, hnq, hcs, hn, hgt,
              hdl, hc0]
      refine ⟨⟨fun h => absurd h hne, fun h => absurd h.2 hgt⟩, fun _ h => absurd h hgt⟩
  · have hcs : env.params.cursor.isSome = true := Option.ne_none_iff_isSome.mp hcur
    have hne : (base_init env).result ≠ .error (.scopusQueryError n env.maxEntries) := by
      cases hdl : env.download <;> by_cases hc0 : env.params.count = 0 <;>
        cases hce : env.cacheExists <;>
          simp [base_init, href, pyInt, _check_file_age, hce, hq, hnq, hcs, hn, hdl, hc0]
    refine ⟨⟨fun h => absurd h hne, fun h => absurd h.1 hcur⟩, fun h _ => absurd h hcur⟩

/-- Service reporting an oversized result count, for the C2 witness. -/
def C2_service_large : SParams → Resp := fun _ =>
  { totalResults := 10000, entries := [], nextCursor := "tok", text := [], headers := [] }

/-- Environment for the C2 witness: ceiling 5000, offset pagination. -/
def C2_env_large : Env :=
  { params := { query := some "q", count := 25, start := 0, cursor := none },
    download := true, not_query := false, refresh := .bool true, cacheExists := false,
    cacheText := [], mtime := 0, now := 99, maxEntries := 5000,
    service := C2_service_large }

theorem C2_query_too_large_witness :
    ((base_init C2_env_large).result = .error (.scopusQueryError 10000 5000) ↔
      C2_env_large.params.cursor = none ∧ 5000 < 10000) ∧
    (C2_env_large.params.cursor = none → 5000 < 10000 →
      (base_init C2_env_large).requests = [C2_env_large.params]) :=
  C2_query_too_large C2_env_large 10000 rfl rfl rfl rfl

/-- Environment for the C6 witness and counterexample: an existing, fresh
(`refresh = False`) retrieval cache whose text `"{"` is not valid JSON. -/
def C6_env : Env :=
  { params := { query := none, count := 25, start := 0, cursor := none },
    download := true, not_query := false, refresh := .bool false, cacheExists := true,
    cacheText := [lbrace], mtime := 5, now := 10, maxEntries := 5000,
    service := fun _ =>
      { totalResults := 0, entries := [], nextCursor := "", text := ['1'], headers := [] } }

/-- C6 counterexample: the fresh-but-malformed cache makes the run fail with
the JSON parse error and the Content Fetcher is never invoked — the claim
said the malformed cache is treated as a cache miss and refetched. -/
theorem C6_counterexample :
    (base_init C6_env).result = .error .jsonDecodeError ∧
    (base_init C6_env).requests = [] :=
  ⟨rfl, rfl⟩

/-- C6 (amended): a fresh cache file whose on-disk payload fails to parse
makes `fetch` raise the parse error; no network request is issued (the
malformed cache is not treated as a miss). -/
theorem C6_malformed_cache (env : Env)
    (hce : env.cacheExists = true) (href : env.refresh = .bool false) :
    ((env.params.query.isSome && !env.not_query) = false → loads env.cacheText = none →
      (base_init env).result = .error .jsonDecodeError) ∧
    ((env.params.query.isSome && !env.not_query) = true →
      readSearchText env.cacheText = none →
      (base_init env).result = .error .jsonDecodeError) ∧
    (base_init env).requests = [] := by
  refine ⟨?_, ?_, ?_⟩
  · intro hsr hload
    simp [base_init, href, pyInt, _check_file_age, hce, hsr, hload]
  · intro hsr hread
    simp [base_init, href, pyInt, _check_file_age, hce, hsr, hread]
  · cases hsr : (env.params.query.isSome && !env.not_query)
    · rcases hload : loads env.cacheText with _ | j <;>
        simp [base_init, href, pyInt, _check_file_age, hce, hsr, hload]
    · rcases hread : readSearchText env.cacheText with _ | js <;>
        simp [base_init, href, pyInt, _check_file_age, hce, hsr, hread]

theorem C6_malformed_cache_witness :
    loads C6_env.cacheText = none ∧
    (base_init C6_env).result = .error .jsonDecodeError ∧
    (base_init C6_env).requests = [] :=
  ⟨rfl, (C6_malformed_cache C6_env rfl rfl).1 rfl rfl,
    (C6_malformed_cache C6_env rfl rfl).2.2⟩

/-- Environment exhibiting the C7 divergence: `refresh = None` is neither
boolean nor integer-convertible. -/
def C7_env : Env :=
  { params := { query := some "q", count := 25, start := 0, cursor := none },
    download := true, not_query := false, refresh := .none_, cacheExists := true,
    cacheText := [], mtime := 5, now := 10, maxEntries := 5000,
    service := fun _ =>
      { totalResults := 1, entries := [], nextCursor := "", text := ['1'], headers := [] } }

/-- C7: `int(None)` raises `TypeError`, which `except ValueError` does not
catch, so the documented `ValueError` ("Parameter refresh needs to be
numeric or boolean.") is never raised for `None` — the failure escapes as a
`TypeError` before any cache read or network request. -/
theorem C7_none_raises_type_error :
    (base_init C7_env).result = .error .typeError ∧
    (base_init C7_env).requests = [] :=
  ⟨rfl, rfl⟩


/-- C4: a boolean refresh policy is returned verbatim by the staleness
check when the cache file exists and replaced by `true` when it does not;
consequently with `refresh = False` and an existing cache the Content
Fetcher is never invoked and the cached payload is returned (for both
request shapes), while with `refresh = True` the run always issues its
first request with the base parameters — regardless of the cache's age. -/
theorem C4_boolean_staleness (env : Env) :
    (∀ (b : Bool) (mtime now : Nat),
      _check_file_age (.bool b) true mtime now = .ok (b, some mtime)) ∧
    (∀ (b : Bool) (mtime now : Nat),
      _check_file_age (.bool b) false mtime now = .ok (true, none)) ∧
    (env.refresh = .bool false → env.cacheExists = true →
      (base_init env).requests = [] ∧
      (∀ entries : List Json, env.params.query.isSome = true → env.not_query = false →
        env.cacheText = writeLines entries →
        (base_init env).result =
          .ok ⟨.search entries, some entries.length, none, none, some env.mtime⟩) ∧
      (∀ doc : Json, (env.params.query.isSome && !env.not_query) = false →
        env.cacheText = dumps doc →
        (base_init env).result =
          .ok ⟨.retrieval doc, none, none, none, some env.mtime⟩)) ∧
    (env.refresh = .bool true → (base_init env).requests.head? = some env.params) := by
  refine ⟨fun b mtime now => rfl, fun b mtime now => rfl, ?_, ?_⟩
  · intro href hce
    refine ⟨?_, ?_, ?_⟩
    · cases hsr : (env.params.query.isSome && !env.not_query)
      · rcases hload : loads env.cacheText with _ | j <;>
          simp [base_init, href, pyInt, _check_file_age, hce, hsr, hload]
      · rcases hread : readSearchText env.cacheText with _ | js <;>
          simp [base_init, href, pyInt, _check_file_age, hce, hsr, hread]
    · intro entries hq2 hnq2 hct
      have hsr : (env.params.query.isSome && !env.not_query) = true := by
        rw [hq2, hnq2]
        rfl
      simp [base_init, href, pyInt, _check_file_age, hce, hsr, hct, read_write_lines]
    · intro doc hsr hct
      simp [base_init, href, pyInt, _check_file_age, hce, hsr, hct, loads_dumps]
  · intro href
    cases hce : env.cacheExists <;>
      cases hsr : (env.params.query.isSome && !env.not_query) <;>
        cases hdl : env.download <;>
          by_cases hc0 : env.params.count = 0 <;>
            cases hguard : (!env.params.cursor.isSome &&
              decide (env.maxEntries < (env.service env.params).totalResults)) <;>
              rcases hload : loads (env.service env.params).text with _ | j <;>
                (simp [base_init, href, pyInt, _check_file_age, hce, hsr, hdl, hc0,
                  hguard, hload] <;> (split <;> simp))

/-- Environment for the C4 witness: fresh one-second-old cache of a search
request holding one entry, `refresh = False`. -/
def C4_env : Env :=
  { params := { query := some "q", count := 25, start := 0, cursor := none },
    download := true, not_query := false, refresh := .bool false, cacheExists := true,
    cacheText := writeLines [Json.num 7], mtime := 42, now := 43, maxEntries := 5000,
    service := fun _ =>
      { totalResults := 9, entries := [], nextCursor := "", text := ['1'], headers := [] } }

theorem C4_boolean_staleness_witness :
    _check_file_age (.bool false) true 42 43 = .ok (false, some 42) ∧
    _check_file_age (.bool true) false 42 43 = .ok (true, none) ∧
    (base_init C4_env).requests = [] ∧
    (base_init C4_env).result = .ok ⟨.search [Json.num 7], some 1, none, none, some 42⟩ :=
  ⟨(C4_boolean_staleness C4_env).1 false 42 43,
    (C4_boolean_staleness C4_env).2.1 true 42 43,
    ((C4_boolean_staleness C4_env).2.2.1 rfl rfl).1,
    ((C4_boolean_staleness C4_env).2.2.1 rfl rfl).2.1 [Json.num 7] rfl rfl rfl⟩

end Pybliometrics
